import Mathlib

/-!
Verification development for the emmet calculation-type classifiers
(`emmet/core/vasp/calc_types.py`, `emmet/core/cp2k/calc_types/utils.py`)
and the JSON sanitizer (`emmet/core/utils.py`).

The Python code is shallowly embedded: Python scalar/container values become
the inductive `Value`, parameter dictionaries become `Params` (a partial map
from names to values, `Option.none` meaning the key is absent and
`Value.none` meaning the Python value `None`), and fallible Python code
returns `Except Unit` (the particular exception class is not tracked).
The external `run_types.yaml` rule table is a parameter of the embedding
(`RuleTable`), since its contents are configuration, not code.
-/

namespace Emmet

/-- Python values occurring in the classifier inputs and the rule table:
`None`, booleans, integers, strings, lists and string-keyed dictionaries.
(Floats are omitted from the universe; no claim depends on them.) -/
inductive Value where
  | none
  | bool (b : Bool)
  | int (n : Int)
  | str (s : String)
  | list (xs : List Value)
  | dict (entries : List (String × Value))

/-- Python truthiness: `bool(v)`. `None`, `False`, `0`, `""`, `[]` and
an empty dict are falsy; everything else is truthy. -/
def pyTruthy : Value → Bool
  | Value.none => false
  | Value.bool b => b
  | Value.int n => n != 0
  | Value.str s => s != ""
  | Value.list xs => !xs.isEmpty
  | Value.dict es => !es.isEmpty

mutual

/-- Python `==` on `Value`: numeric cross-equality between `bool` and `int`
(`True == 1`), structural equality on lists and dictionaries, and `False`
across different types. Dictionary equality is modelled pointwise in
declaration order; every dictionary the classifiers compare is built by
the code with a fixed key order and is only ever compared against scalars,
so the order-insensitivity of CPython's dictionary equality is never
exercised. -/
def pyEq : Value → Value → Bool
  | Value.none, Value.none => true
  | Value.bool a, Value.bool b => a == b
  | Value.bool a, Value.int b => (if a then (1 : Int) else 0) == b
  | Value.int a, Value.bool b => a == (if b then (1 : Int) else 0)
  | Value.int a, Value.int b => a == b
  | Value.str a, Value.str b => a == b
  | Value.list a, Value.list b => pyEqList a b
  | Value.dict a, Value.dict b => pyEqPairs a b
  | _, _ => false

/-- Pointwise Python `==` on lists of equal length. -/
def pyEqList : List Value → List Value → Bool
  | [], [] => true
  | x :: xs, y :: ys => pyEq x y && pyEqList xs ys
  | _, _ => false

/-- Pointwise equality of association lists: same keys in the same order,
`pyEq`-equal values. -/
def pyEqPairs : List (String × Value) → List (String × Value) → Bool
  | [], [] => true
  | (k1, v1) :: r1, (k2, v2) :: r2 => k1 == k2 && pyEq v1 v2 && pyEqPairs r1 r2
  | _, _ => false

end

/-- `s.strip()`: drop leading and trailing whitespace (the embedding works
on the character list so that it evaluates inside the kernel). -/
def pyStrip (s : String) : String :=
  String.mk (((s.data.dropWhile Char.isWhitespace).reverse.dropWhile
    Char.isWhitespace).reverse)

/-- `s.upper()` (ASCII case mapping; the functional names the classifiers
compare are ASCII). -/
def pyUpper (s : String) : String := String.mk (s.data.map Char.toUpper)

/-- `_variant_equal(v1, v2)` (identical helper in the VASP and the CP2K
module): when both sides are strings, compare after `strip().upper()`;
otherwise plain Python `==`. -/
def variantEqual : Value → Value → Bool
  | Value.str a, Value.str b => pyUpper (pyStrip a) == pyUpper (pyStrip b)
  | v1, v2 => pyEq v1 v2

/-- Parameter dictionaries: `Option.none` = key absent, `Value.none` =
the Python value `None`. -/
abbrev Params : Type := String → Option Value

/-- `p.get(k, d)`. -/
def pget (p : Params) (k : String) (d : Value) : Value := (p k).getD d

/-- `p[k] = v` (functional update). -/
def pset (p : Params) (k : String) (v : Value) : Params :=
  fun k2 => if k2 = k then some v else p k2

/-- The parameter dictionary with no keys. -/
def pempty : Params := fun _ => Option.none

/-- An association-list lookup with a default, for `Value.dict` payloads:
`d.get(k, default)`. Keys are unique in all dictionaries the code builds. -/
def dictGet (es : List (String × Value)) (k : String) (d : Value) : Value :=
  match es.lookup k with
  | some v => v
  | Option.none => d

/-- The rule table `_RUN_TYPE_DATA` loaded from `run_types.yaml`, in
declaration order: functional class name to ordered list of
(special type name, required parameters). -/
abbrev RuleTable : Type :=
  List (String × List (String × List (String × Value)))

/-- One rule matches: every required parameter `_variant_equal`s the
corresponding input parameter (`parameters.get(param, None)` given by
`get1`). -/
def ruleMatches (get1 : String → Value) (ps : List (String × Value)) : Bool :=
  ps.all fun kv => variantEqual (get1 kv.1) kv.2

/-- The first special type in a class whose rule matches, if any
(the inner `for special_type, params in ....items()` loop). -/
def firstRuleMatch (get1 : String → Value) :
    List (String × List (String × Value)) → Option String
  | [] => Option.none
  | (st, ps) :: rest =>
      if ruleMatches get1 ps then some st else firstRuleMatch get1 rest

/-- The VASP Hubbard suffix: `"+U" if parameters.get("LDAU", False) else ""`. -/
def vaspHubbard (p : Params) : String :=
  if pyTruthy (pget p "LDAU" (Value.bool false)) then "+U" else ""

/-- `parameters.get(param, None)` for the VASP classifier. -/
def vaspGet (p : Params) : String → Value := fun k => pget p k Value.none

/-- The outer loop of the VASP `run_type`: walk the class names in the
given order, looking each up in `_RUN_TYPE_DATA` (a missing class is a
`KeyError`, hence `Except.error`), and return the first matching special
type, or `Option.none` when every class was scanned without a match. -/
def vaspScan (table : RuleTable) (p : Params) :
    List String → Except Unit (Option String)
  | [] => Except.ok Option.none
  | c :: cs =>
      match table.lookup c with
      | Option.none => Except.error ()
      | some rules =>
          match firstRuleMatch (vaspGet p) rules with
          | some st => Except.ok (some st)
          | Option.none => vaspScan table p cs

/-- The fixed class priority order of the VASP `run_type`
(`for functional_class in ["HF", "VDW", "METAGGA", "GGA"]`). -/
def vaspClassOrder : List String := ["HF", "VDW", "METAGGA", "GGA"]

/-- `run_type(parameters)` for VASP: Hubbard suffix from `LDAU`, scan the
classes in priority order, fall back to `"LDA"`. The trailing
`RunType(...)` enum lookup is by value and always succeeds (the enum's
values are built from the very same table, each special type with and
without `"+U"`, plus `"LDA"`/`"LDA+U"`), so the label string itself is
returned. -/
def vaspRunType (table : RuleTable) (p : Params) : Except Unit String :=
  match vaspScan table p vaspClassOrder with
  | Except.error e => Except.error e
  | Except.ok (some st) => Except.ok (st ++ vaspHubbard p)
  | Except.ok Option.none => Except.ok ("LDA" ++ vaspHubbard p)

/-- `v > m` for an `int` right-hand side, as Python evaluates it: numeric
for `int`/`bool` left-hand sides, `TypeError` otherwise. -/
def pyGt (v : Value) (m : Int) : Except Unit Bool :=
  match v with
  | Value.int n => Except.ok (decide (n > m))
  | Value.bool b => Except.ok (decide ((if b then (1 : Int) else 0) > m))
  | _ => Except.error ()

/-- Is this value the Python `None`? -/
def pyIsNone : Value → Bool
  | Value.none => true
  | _ => false

/-- `incar = inputs.get("incar", {})`: an absent key yields the empty
dictionary; a present non-dictionary raises (`AttributeError` at the first
`incar.get`). -/
def getIncar (inputs : Params) : Except Unit (List (String × Value)) :=
  match inputs "incar" with
  | Option.none => Except.ok []
  | some (Value.dict d) => Except.ok d
  | some _ => Except.error ()

/-- `len(list(filter(None.__ne__, (inputs.get("kpoints") or {}).get("labels") or [])))`:
count of non-`None` entries of the k-point label list (`None.__ne__(x)` is
`NotImplemented`, which is truthy, for every non-`None` `x`). Iterating a
string counts its characters, iterating a dictionary its keys; a
non-iterable raises, which the `except` clause re-raises. -/
def vaspKptCount (inputs : Params) : Except Unit Nat :=
  let kpts := match inputs "kpoints" with
    | some v => if pyTruthy v then v else Value.dict []
    | Option.none => Value.dict []
  match kpts with
  | Value.dict kd =>
      let kl := dictGet kd "labels" Value.none
      let labels := if pyTruthy kl then kl else Value.list []
      match labels with
      | Value.list ls => Except.ok (ls.countP fun v => !(pyIsNone v))
      | Value.str s => Except.ok s.length
      | Value.dict es => Except.ok es.length
      | _ => Except.error ()
  | _ => Except.error ()

/-- `incar.get("ISIF", d1) == d2 and incar.get("IBRION", 0) > 0`: the
relaxation-branch condition, with Python short-circuiting (the `IBRION`
comparison is evaluated only when the `ISIF` equality holds). -/
def vaspRelaxCond (incar : List (String × Value)) (d1 d2 : Int) :
    Except Unit Bool :=
  if pyEq (dictGet incar "ISIF" (Value.int d1)) (Value.int d2)
  then pyGt (dictGet incar "IBRION" (Value.int 0)) 0
  else pure false

/-- The ordered `if/elif` chain of the VASP `task_type`, producing the
`" ".join(calc_type)` label string (possibly empty). The two relaxation
branches evaluate their `and` with Python short-circuiting. -/
def vaspTaskLabel (inputs : Params) : Except Unit String := do
  let incar ← getIncar inputs
  let icharg ← pyGt (dictGet incar "ICHARG" (Value.int 0)) 10
  if icharg then do
    let n ← vaspKptCount inputs
    if n > 0 then pure "NSCF Line" else pure "NSCF Uniform"
  else if pyTruthy (dictGet incar "LEPSILON" (Value.bool false)) then do
    let ib ← pyGt (dictGet incar "IBRION" (Value.int 0)) 6
    if ib then pure "DFPT Dielectric" else pure "Dielectric"
  else do
    let ib ← pyGt (dictGet incar "IBRION" (Value.int 0)) 6
    if ib then pure "DFPT"
    else if pyTruthy (dictGet incar "LCHIMAG" (Value.bool false)) then
      pure "NMR Nuclear Shielding"
    else if pyTruthy (dictGet incar "LEFG" (Value.bool false)) then
      pure "NMR Electric Field Gradient"
    else if pyEq (dictGet incar "NSW" (Value.int 1)) (Value.int 0) then
      pure "Static"
    else do
      let f ← vaspRelaxCond incar 2 3
      if f then pure "Structure Optimization"
      else do
        let g ← vaspRelaxCond incar 3 2
        if g then pure "Deformation" else pure ""

/-- `_TASK_TYPES`: the values of the VASP `TaskType` enum. Note that the
empty string is not among them. -/
def vaspTaskTypes : List String :=
  ["NSCF Line", "NSCF Uniform", "Dielectric", "DFPT", "DFPT Dielectric",
   "NMR Nuclear Shielding", "NMR Electric Field Gradient", "Static",
   "Structure Optimization", "Deformation"]

/-- `task_type(inputs)` for VASP: the label string fed to the
`TaskType(...)` by-value enum lookup, which raises `ValueError` when the
label is not one of `_TASK_TYPES`. -/
def vaspTaskType (inputs : Params) : Except Unit String := do
  let s ← vaspTaskLabel inputs
  if vaspTaskTypes.contains s then pure s else Except.error ()

/-- `"_".join(v.split())`: split on whitespace runs and rejoin with
underscores (the enum member-name construction; the embedding works on the
character list so that it evaluates inside the kernel). -/
def joinWords (v : String) : String :=
  String.mk (List.intercalate ['_']
    ((v.data.foldr (fun c acc =>
        if Char.isWhitespace c then [] :: acc
        else match acc with
          | [] => [[c]]
          | w :: ws => (c :: w) :: ws) []).filter fun w => w ≠ []))

/-- The member name of the VASP `RunType` enum holding value `v`:
`"_".join(v.split()).replace("+", "_")` (a one-character pattern, so the
replacement is a character map). -/
def runTypeMemberName (v : String) : String :=
  String.mk ((joinWords v).data.map fun c => if c = '+' then '_' else c)

/-- The member name of the VASP `TaskType` enum holding value `v`. -/
def taskTypeMemberName (v : String) : String := joinWords v

/-- All special-type names of the rule table, in declaration order
(`for functional_class in _RUN_TYPE_DATA for rt in ...`). -/
def vaspSpecialTypes (table : RuleTable) : List String :=
  table.flatMap fun ce => ce.2.map fun r => r.1

/-- `_RUN_TYPES`: the values of the VASP `RunType` enum — every special
type plain and with `"+U"`, plus `"LDA"` and `"LDA+U"`. -/
def vaspRunTypes (table : RuleTable) : List String :=
  vaspSpecialTypes table ++ (vaspSpecialTypes table).map (fun rt => rt ++ "+U")
    ++ ["LDA", "LDA+U"]

/-- The values of the VASP `CalcType` enum: `f"{rt} {tt}"` over the product
of `_RUN_TYPES` and `_TASK_TYPES`. -/
def vaspCalcTypeValues (table : RuleTable) : List String :=
  (vaspRunTypes table).flatMap fun rt => vaspTaskTypes.map fun tt => rt ++ " " ++ tt

/-- `calc_type(inputs, parameters)` for VASP. `rt` and `tt` are plain-Enum
members, so the f-string `f"{rt} {tt}"` renders them as
`"RunType.<member name> TaskType.<member name>"` (a plain `Enum` formats as
`str(member)`, which is `"<class>.<name>"`, not the value); the result is
then looked up by value in the `CalcType` enum, raising `ValueError` when
absent. -/
def vaspCalcType (table : RuleTable) (inputs : Params) (p : Params) :
    Except Unit String := do
  let rt ← vaspRunType table p
  let tt ← vaspTaskType inputs
  let s := "RunType." ++ runTypeMemberName rt ++ " TaskType." ++ taskTypeMemberName tt
  if (vaspCalcTypeValues table).contains s then pure s else Except.error ()

/-- `len(v)`: defined for strings, lists and dictionaries; `TypeError`
otherwise (in particular for `None`). -/
def pyLen (v : Value) : Except Unit Nat :=
  match v with
  | Value.str s => Except.ok s.length
  | Value.list xs => Except.ok xs.length
  | Value.dict es => Except.ok es.length
  | _ => Except.error ()

/-- `v[0]`, evaluated only when `len(v) == 1`: the head of a one-element
list; a one-character string indexes to itself; a string-keyed dictionary
has no key `0` (`KeyError`). -/
def pyIndex0 (v : Value) : Except Unit Value :=
  match v with
  | Value.list (x :: _) => Except.ok x
  | Value.str s => Except.ok (Value.str s)
  | _ => Except.error ()

/-- The single-element unwrap of the `FUNCTIONAL` entry:
`if len(f) == 1: f = f[0]` (`len` raising on `None` and other
non-sized values). -/
def cp2kUnwrapFunctional (f : Value) : Except Unit Value := do
  let flen ← pyLen f
  if flen = 1 then pyIndex0 f else pure f

/-- The `parameters` dictionary the CP2K `run_type` builds from `dft`:
`FUNCTIONAL` from `dft.get('functional')` (unwrapped when its `len` is 1 —
`len(None)` raises `TypeError`), `INTERACTION_POTENTIAL` and `FRACTION`
from `dft.get('hfx', {})` (a present non-dictionary `hfx` raises
`AttributeError` first, during the dictionary-literal evaluation). -/
def cp2kBuildParams (dft : Params) : Except Unit (List (String × Value)) := do
  let f := pget dft "functional" Value.none
  let hx := pget dft "hfx" (Value.dict [])
  let ipfr ← match hx with
    | Value.dict hd =>
        Except.ok (dictGet hd "Interaction_Potential" Value.none,
                   dictGet hd "FRACTION" (Value.int 0))
    | _ => Except.error ()
  let f2 ← cp2kUnwrapFunctional f
  pure [("FUNCTIONAL", f2), ("INTERACTION_POTENTIAL", ipfr.1), ("FRACTION", ipfr.2)]

/-- The CP2K rule loop: iterate the table in declaration order and return
the name of the first functional class one of whose rules matches — the
class name, not the special-type name (`RunType(f"{functional_class}...")`). -/
def cp2kScan (get1 : String → Value) : RuleTable → Option String
  | [] => Option.none
  | (c, rules) :: rest =>
      if (firstRuleMatch get1 rules).isSome then some c else cp2kScan get1 rest

/-- `run_type(dft)` for CP2K: Hubbard suffix from `dft_plus_u`, build the
parameter dictionary, scan the table; falling off the loop returns the
Python `None` (`Except.ok Option.none`). -/
def cp2kRunType (table : RuleTable) (dft : Params) : Except Unit (Option String) := do
  let hub := if pyTruthy (pget dft "dft_plus_u" Value.none) then "+U" else ""
  let ps ← cp2kBuildParams dft
  pure ((cp2kScan (fun k => dictGet ps k Value.none) table).map fun c => c ++ hub)

/-- The ordered label groups of the CP2K `task_type` `if/elif` chain:
(upper-cased members, label). -/
def cp2kGroups : List (List String × String) :=
  [(["ENERGY", "ENERGY_FORCE", "WAVEFUNCTION_OPTIMIZATION", "WFN_OPT"], "Static"),
   (["GEO_OPT", "GEOMETRY_OPTIMIZATION", "CELL_OPT"], "Structure Optimization"),
   (["BAND"], "Band"),
   (["MOLECULAR_DYNAMICS", "MD"], "Molecular Dynamics"),
   (["MONTE_CARLO", "MC", "TMC", "TAMC"], "Monte Carlo"),
   (["LINEAR_RESPONSE", "LR"], "Linear Response"),
   (["VIBRATIONAL_ANALYSIS", "NORMAL_MODES"], "Vibrational Analysis"),
   (["ELECTRONIC_SPECTRA", "SPECTRA"], "Electronic Spectra"),
   (["NEGF"], "Non-equilibrium Green\x27s Function"),
   (["PINT", "DRIVER"], "Path Integral"),
   (["RT_PROPAGATION", "EHRENFEST_DYN"], "Real-time propagation"),
   (["BSSE"], "Base set superposition error"),
   (["DEBUG"], "Debug analysis"),
   (["NONE"], "None")]

/-- First group containing the upper-cased run-type string wins; no match
yields the empty label (`" ".join([])`). -/
def cp2kMatchGroup (u : String) : List (List String × String) → String
  | [] => ""
  | (g, label) :: rest => if g.contains u then label else cp2kMatchGroup u rest

/-- The CP2K task label: `inputs.get('Run_type', '')`, upper-cased and
matched against the groups; `.upper()` on a non-string raises
`AttributeError`. -/
def cp2kTaskLabel (inputs : Params) : Except Unit String := do
  let rt ← match pget inputs "Run_type" (Value.str "") with
    | Value.str s => Except.ok s
    | _ => Except.error ()
  pure (cp2kMatchGroup (pyUpper rt) cp2kGroups)

/-- Modelled from the spec: the CP2K `TaskType` enum lives in
`emmet/core/cp2k/calc_types/enums.py`, which is not among the reviewed
sources. Per the spec it holds the fixed task labels, and "no match yields
empty label", so the empty label is a valid member. -/
def cp2kTaskValues : List String := cp2kGroups.map (fun g => g.2) ++ [""]

/-- `task_type(inputs)` for CP2K: the label string fed to the
`TaskType(...)` by-value lookup over the spec-modelled `cp2kTaskValues`. -/
def cp2kTaskType (inputs : Params) : Except Unit String := do
  let s ← cp2kTaskLabel inputs
  if cp2kTaskValues.contains s then pure s else Except.error ()

/-- `calc_type(inputs)` for CP2K: `rt = run_type(inputs).value` first —
when `run_type` fell off its loop this is `None.value`, an
`AttributeError` raised by `calc_type` itself — then
`tt = task_type(inputs).value`, then `CalcType(f"{rt} {tt}")`. The final
`CalcType` enum is modelled from the spec (its values are the literal
concatenations of run-type and task-type values), so the lookup is the
identity on the concatenation. -/
def cp2kCalcType (table : RuleTable) (inputs : Params) : Except Unit String := do
  let r ← cp2kRunType table inputs
  match r with
  | Option.none => Except.error ()
  | some rt => do
      let tt ← cp2kTaskType inputs
      pure (rt ++ " " ++ tt)

/-- The universe of Python objects `jsanitize` (`emmet/core/utils.py`) can
meet: primitives, lists/tuples, numpy arrays (as their `tolist()`),
`Enum` members (carrying their `.value`), dictionaries (arbitrary keys),
`MSONable` objects (carrying their `as_dict()`), pydantic models (carrying
their `.dict()`), the bson-relevant leaf types `datetime`/`bytes`/
`ObjectId`, and a generic object carrying its `str()` rendering and
optionally an `as_dict()`. -/
inductive PyVal where
  | noneV
  | boolV (b : Bool)
  | intV (n : Int)
  | strV (s : String)
  | listV (xs : List PyVal)
  | ndarrayV (xs : List PyVal)
  | enumV (v : PyVal)
  | dictV (es : List (PyVal × PyVal))
  | msonV (rep : String) (d : List (PyVal × PyVal))
  | modelV (rep : String) (d : List (PyVal × PyVal))
  | datetimeV (rep : String)
  | bytesV (rep : String)
  | objectIdV (rep : String)
  | otherV (rep : String) (asDict : Option (List (PyVal × PyVal)))

/-- `k.__str__()`. Leaves render as CPython renders them; objects carry
their rendering in their `rep` field; the exact container rendering is
immaterial to every claim (only that the result is a string), so
containers and enum members render as a constructor tag. -/
def pyStr : PyVal → String
  | PyVal.noneV => "None"
  | PyVal.boolV b => if b then "True" else "False"
  | PyVal.intV n => toString n
  | PyVal.strV s => s
  | PyVal.listV _ => "<list>"
  | PyVal.ndarrayV _ => "<ndarray>"
  | PyVal.enumV _ => "<enum member>"
  | PyVal.dictV _ => "<dict>"
  | PyVal.msonV rep _ => rep
  | PyVal.modelV rep _ => rep
  | PyVal.datetimeV rep => rep
  | PyVal.bytesV rep => rep
  | PyVal.objectIdV rep => rep
  | PyVal.otherV rep _ => rep

mutual

/-- `jsanitize(obj, strict, allow_bson)`, with the source's branch order:
bson pass-through, list/tuple, ndarray, `Enum` (returning `obj.value`
unrecursed), dict, `MSONable`, pydantic model, `int`/`float` (which
includes `bool`), `None`, the lenient `str(obj)` fall-back, the strict
`str` branch, and finally the strict `obj.as_dict()` recursion (an
`AttributeError` when the object has none). The final branch recurses on
the `as_dict()` dictionary; it is unfolded one step here (the dict branch
applied to `d`). -/
def jsanitize (strict ab : Bool) : PyVal → Except Unit PyVal
  | PyVal.datetimeV rep =>
      if ab then Except.ok (PyVal.datetimeV rep)
      else if strict then Except.error () else Except.ok (PyVal.strV rep)
  | PyVal.bytesV rep =>
      if ab then Except.ok (PyVal.bytesV rep)
      else if strict then Except.error () else Except.ok (PyVal.strV rep)
  | PyVal.objectIdV rep =>
      if ab then Except.ok (PyVal.objectIdV rep)
      else if strict then Except.error () else Except.ok (PyVal.strV rep)
  | PyVal.listV xs => do
      let ys ← jsanList strict ab xs
      pure (PyVal.listV ys)
  | PyVal.ndarrayV xs => do
      let ys ← jsanList strict ab xs
      pure (PyVal.listV ys)
  | PyVal.enumV v => Except.ok v
  | PyVal.dictV es => do
      let fs ← jsanPairs strict ab es
      pure (PyVal.dictV fs)
  | PyVal.msonV _ d => do
      let fs ← jsanPairs strict ab d
      pure (PyVal.dictV fs)
  | PyVal.modelV _ d => do
      let fs ← jsanPairs strict ab d
      pure (PyVal.dictV fs)
  | PyVal.intV n => Except.ok (PyVal.intV n)
  | PyVal.boolV b => Except.ok (PyVal.boolV b)
  | PyVal.noneV => Except.ok PyVal.noneV
  | PyVal.strV s => Except.ok (PyVal.strV s)
  | PyVal.otherV rep asDict =>
      if strict then
        match asDict with
        | some d => do
            let fs ← jsanPairs strict ab d
            pure (PyVal.dictV fs)
        | Option.none => Except.error ()
      else Except.ok (PyVal.strV rep)

/-- `[jsanitize(i, ...) for i in obj]`. -/
def jsanList (strict ab : Bool) : List PyVal → Except Unit (List PyVal)
  | [] => Except.ok []
  | x :: xs => do
      let y ← jsanitize strict ab x
      let ys ← jsanList strict ab xs
      pure (y :: ys)

/-- The dict comprehension common to the dict/`MSONable`/pydantic branches:
each key becomes `k.__str__()`, each value is sanitized. -/
def jsanPairs (strict ab : Bool) :
    List (PyVal × PyVal) → Except Unit (List (PyVal × PyVal))
  | [] => Except.ok []
  | (k, v) :: es => do
      let w ← jsanitize strict ab v
      let fs ← jsanPairs strict ab es
      pure ((PyVal.strV (pyStr k), w) :: fs)

end

mutual

/-- Every dictionary node anywhere in the tree has only string keys. -/
def stringKeyed : PyVal → Bool
  | PyVal.listV xs => skList xs
  | PyVal.ndarrayV xs => skList xs
  | PyVal.enumV v => stringKeyed v
  | PyVal.dictV es => skDict es
  | PyVal.msonV _ d => skPairs d
  | PyVal.modelV _ d => skPairs d
  | PyVal.otherV _ (some d) => skPairs d
  | _ => true

def skList : List PyVal → Bool
  | [] => true
  | x :: xs => stringKeyed x && skList xs

/-- Dictionary entries: string keys, both components recursively clean. -/
def skDict : List (PyVal × PyVal) → Bool
  | [] => true
  | (PyVal.strV _, v) :: es => stringKeyed v && skDict es
  | _ => false

/-- Association payloads of objects (not themselves dictionary nodes):
no key constraint, both components recursively clean. -/
def skPairs : List (PyVal × PyVal) → Bool
  | [] => true
  | (k, v) :: es => stringKeyed k && stringKeyed v && skPairs es

end

mutual

/-- Every `Enum` member reachable in the tree has a `stringKeyed` value —
the precondition under which `jsanitize`'s output is string-keyed, since
enum values are forwarded verbatim. -/
def enumClean : PyVal → Bool
  | PyVal.listV xs => ecList xs
  | PyVal.ndarrayV xs => ecList xs
  | PyVal.enumV v => stringKeyed v
  | PyVal.dictV es => ecPairs es
  | PyVal.msonV _ d => ecPairs d
  | PyVal.modelV _ d => ecPairs d
  | PyVal.otherV _ (some d) => ecPairs d
  | _ => true

def ecList : List PyVal → Bool
  | [] => true
  | x :: xs => enumClean x && ecList xs

def ecPairs : List (PyVal × PyVal) → Bool
  | [] => true
  | (_, v) :: es => enumClean v && ecPairs es

end

/-! ## Helper lemmas and concrete instances -/

/-- A successful association-list lookup exhibits a member. -/
theorem lookup_mem {α β : Type} [BEq α] [LawfulBEq α] {k : α} {b : β} :
    {l : List (α × β)} → List.lookup k l = some b → (k, b) ∈ l
  | [], h => by simp [List.lookup] at h
  | (a, c) :: l, h => by
      by_cases hk : (k == a) = true
      · simp only [List.lookup, hk] at h
        have hka : k = a := eq_of_beq hk
        subst hka
        injection h with h2
        subst h2
        exact List.mem_cons_self _ _
      · simp only [List.lookup, hk] at h
        exact List.mem_cons_of_mem _ (lookup_mem h)

/-- Scanning past a prefix of classes none of whose rules match. -/
theorem vaspScan_append (table : RuleTable) (p : Params) (pre cs : List String)
    (h : ∀ c ∈ pre, ∃ rs, table.lookup c = some rs ∧
      firstRuleMatch (vaspGet p) rs = Option.none) :
    vaspScan table p (pre ++ cs) = vaspScan table p cs := by
  induction pre with
  | nil => rfl
  | cons c rest ih =>
      obtain ⟨rs, hl, hm⟩ := h c (List.mem_cons_self c rest)
      simp only [List.cons_append, vaspScan, hl, hm]
      exact ih fun x hx => h x (List.mem_cons_of_mem c hx)

/-- A rule table for concrete tests: an HF special type keyed on `LHFCALC`
and a GGA special type keyed on the `GGA` functional parameter. -/
def tblA : RuleTable :=
  [("HF", [("HSE06", [("LHFCALC", Value.bool true)])]),
   ("VDW", []),
   ("METAGGA", []),
   ("GGA", [("PBE", [("GGA", Value.str "PE")])])]

/-- Parameters satisfying both the HF rule and the GGA rule of `tblA`. -/
def pA : Params := fun k =>
  if k = "LHFCALC" then some (Value.bool true)
  else if k = "GGA" then some (Value.str "PE") else Option.none

/-- Parameters with only the Hubbard flag set. -/
def pL : Params := fun k =>
  if k = "LDAU" then some (Value.bool true) else Option.none

/-! ## C1 -/

/-- C1: the VASP `run_type` evaluates the functional classes in the fixed
order `["HF", "VDW", "METAGGA", "GGA"]`; whenever every class before `c`
in that order has no matching rule and the first matching rule of class
`c` is the special type `st`, the result is `st` with the Hubbard suffix —
classes after `c` (in particular GGA after HF) never override the match. -/
theorem vasp_runType_class_priority (table : RuleTable) (p : Params)
    (pre post : List String) (c : String)
    (rules : List (String × List (String × Value))) (st : String)
    (horder : vaspClassOrder = pre ++ c :: post)
    (hpre : ∀ c2 ∈ pre, ∃ rs, table.lookup c2 = some rs ∧
      firstRuleMatch (vaspGet p) rs = Option.none)
    (hc : table.lookup c = some rules)
    (hm : firstRuleMatch (vaspGet p) rules = some st) :
    vaspRunType table p = Except.ok (st ++ vaspHubbard p) := by
  have hscan : vaspScan table p vaspClassOrder = Except.ok (some st) := by
    rw [horder, vaspScan_append table p pre (c :: post) hpre]
    simp [vaspScan, hc, hm]
  simp [vaspRunType, hscan]

/-- Witness for C1: in `tblA`, the parameters `pA` match both the HF rule
(`HSE06`) and the GGA rule (`PBE`); `run_type` returns the HF result. -/
theorem vasp_runType_class_priority_witness :
    vaspClassOrder = [] ++ "HF" :: ["VDW", "METAGGA", "GGA"]
    ∧ tblA.lookup "HF" = some [("HSE06", [("LHFCALC", Value.bool true)])]
    ∧ firstRuleMatch (vaspGet pA)
        [("HSE06", [("LHFCALC", Value.bool true)])] = some "HSE06"
    ∧ firstRuleMatch (vaspGet pA)
        [("PBE", [("GGA", Value.str "PE")])] = some "PBE"
    ∧ vaspRunType tblA pA = Except.ok "HSE06" := by
  refine ⟨rfl, rfl, rfl, rfl, ?_⟩
  have h := vasp_runType_class_priority tblA pA [] ["VDW", "METAGGA", "GGA"]
    "HF" [("HSE06", [("LHFCALC", Value.bool true)])] "HSE06"
    rfl (by intro c2 hc2; simp at hc2) rfl rfl
  exact h

/-! ## C2 -/

/-- C2: when no rule of any of the four classes matches, the VASP
`run_type` is exactly `"LDA"`, with `"+U"` appended exactly when the
`LDAU` flag is truthy. -/
theorem vasp_runType_lda_fallback (table : RuleTable) (p : Params)
    (h : ∀ c ∈ vaspClassOrder, ∃ rs, table.lookup c = some rs ∧
      firstRuleMatch (vaspGet p) rs = Option.none) :
    vaspRunType table p =
      Except.ok (if pyTruthy (pget p "LDAU" (Value.bool false))
                 then "LDA+U" else "LDA") := by
  have hscan : vaspScan table p vaspClassOrder = Except.ok Option.none := by
    have h2 := vaspScan_append table p vaspClassOrder [] h
    simpa using h2
  by_cases hT : pyTruthy (pget p "LDAU" (Value.bool false)) <;>
    simp [vaspRunType, hscan, vaspHubbard, hT]

/-- Witness for C2: with `tblA` and parameters holding only a truthy
`LDAU`, no rule matches and the result is `"LDA+U"`. -/
theorem vasp_runType_lda_fallback_witness :
    pyTruthy (pget pL "LDAU" (Value.bool false)) = true
    ∧ vaspRunType tblA pL = Except.ok "LDA+U" := by
  refine ⟨rfl, ?_⟩
  have h := vasp_runType_lda_fallback tblA pL (by
    intro c hc
    simp [vaspClassOrder] at hc
    rcases hc with rfl | rfl | rfl | rfl
    · exact ⟨_, rfl, rfl⟩
    · exact ⟨_, rfl, rfl⟩
    · exact ⟨_, rfl, rfl⟩
    · exact ⟨_, rfl, rfl⟩)
  simpa using h

/-! ## C3 -/

/-- No rule anywhere in the table requires the parameter `k` (true of the
shipped `run_types.yaml` for `LDAU`: the Hubbard flag is read separately
and appears in no rule). -/
abbrev tableNoKey (table : RuleTable) (k : String) : Prop :=
  ∀ ce ∈ table, ∀ r ∈ ce.2, ∀ kv ∈ r.2, kv.1 ≠ k

/-- Updating a parameter no rule mentions does not change whether a rule
matches. -/
theorem ruleMatches_pset (p : Params) (k : String) (v : Value)
    (ps : List (String × Value)) (h : ∀ kv ∈ ps, kv.1 ≠ k) :
    ruleMatches (vaspGet (pset p k v)) ps = ruleMatches (vaspGet p) ps := by
  unfold ruleMatches
  induction ps with
  | nil => rfl
  | cons kv rest ih =>
      simp only [List.all_cons]
      rw [ih fun x hx => h x (List.mem_cons_of_mem _ hx)]
      have hne := h kv (List.mem_cons_self _ _)
      simp [vaspGet, pget, pset, hne]

/-- Updating a parameter no rule mentions does not change the first
matching rule of a class. -/
theorem firstRuleMatch_pset (p : Params) (k : String) (v : Value)
    (rules : List (String × List (String × Value)))
    (h : ∀ r ∈ rules, ∀ kv ∈ r.2, kv.1 ≠ k) :
    firstRuleMatch (vaspGet (pset p k v)) rules
      = firstRuleMatch (vaspGet p) rules := by
  induction rules with
  | nil => rfl
  | cons r rest ih =>
      simp only [firstRuleMatch]
      rw [ruleMatches_pset p k v r.2 (h r (List.mem_cons_self _ _))]
      rw [ih fun x hx => h x (List.mem_cons_of_mem _ hx)]

/-- Updating a parameter no rule of the table mentions does not change the
class scan. -/
theorem vaspScan_pset (table : RuleTable) (p : Params) (k : String)
    (v : Value) (hT : tableNoKey table k) (cs : List String) :
    vaspScan table (pset p k v) cs = vaspScan table p cs := by
  induction cs with
  | nil => rfl
  | cons c rest ih =>
      cases hl : table.lookup c with
      | none => simp [vaspScan, hl]
      | some rules =>
          simp only [vaspScan, hl]
          rw [firstRuleMatch_pset p k v rules
            fun r hr => hT (c, rules) (lookup_mem hl) r hr]
          cases firstRuleMatch (vaspGet p) rules with
          | none => exact ih
          | some st => rfl

/-- C3: toggling only the Hubbard flag (VASP `LDAU`, CP2K `dft_plus_u`)
between a truthy and a falsy value, all other parameters fixed, changes
`run_type` exactly by appending the `"+U"` suffix: the truthy result is
the falsy result with `"+U"` appended (the VASP half assumes, as the
shipped rule table satisfies, that no rule requires the `LDAU` key; the
CP2K rule parameters are rebuilt from `functional`/`hfx` only, so no
table assumption is needed, and an error or unset outcome is preserved
by the toggle). -/
theorem runType_hubbard_toggle
    (tableV : RuleTable) (p : Params) (tableC : RuleTable) (dft : Params)
    (t f : Value) (ht : pyTruthy t = true) (hf : pyTruthy f = false)
    (hnk : tableNoKey tableV "LDAU") :
    vaspRunType tableV (pset p "LDAU" t)
      = (vaspRunType tableV (pset p "LDAU" f)).map (fun s => s ++ "+U")
    ∧ cp2kRunType tableC (pset dft "dft_plus_u" t)
      = (cp2kRunType tableC (pset dft "dft_plus_u" f)).map
          (Option.map fun s => s ++ "+U") := by
  constructor
  · have hsc : vaspScan tableV (pset p "LDAU" t) vaspClassOrder
        = vaspScan tableV (pset p "LDAU" f) vaspClassOrder := by
      rw [vaspScan_pset tableV p "LDAU" t hnk, vaspScan_pset tableV p "LDAU" f hnk]
    have hhT : vaspHubbard (pset p "LDAU" t) = "+U" := by
      simp [vaspHubbard, pget, pset, ht]
    have hhF : vaspHubbard (pset p "LDAU" f) = "" := by
      simp [vaspHubbard, pget, pset, hf]
    cases hres : vaspScan tableV (pset p "LDAU" f) vaspClassOrder with
    | error e => simp [vaspRunType, hsc, hres, Except.map]
    | ok o =>
        cases o with
        | none => simp [vaspRunType, hsc, hres, hhT, hhF, Except.map]
        | some st => simp [vaspRunType, hsc, hres, hhT, hhF, Except.map]
  · have hne : ¬ (("functional" : String) = "dft_plus_u") := by decide
    have hne2 : ¬ (("hfx" : String) = "dft_plus_u") := by decide
    have hbuild : cp2kBuildParams (pset dft "dft_plus_u" t)
        = cp2kBuildParams (pset dft "dft_plus_u" f) := by
      unfold cp2kBuildParams
      simp [pget, pset, hne, hne2]
    have hhT : pyTruthy (pget (pset dft "dft_plus_u" t) "dft_plus_u" Value.none)
        = true := by simp [pget, pset, ht]
    have hhF : pyTruthy (pget (pset dft "dft_plus_u" f) "dft_plus_u" Value.none)
        = false := by simp [pget, pset, hf]
    cases hb : cp2kBuildParams (pset dft "dft_plus_u" f) with
    | error e =>
        simp [cp2kRunType, hbuild, hb, hhT, hhF, Except.map, Bind.bind, Except.bind]
    | ok ps =>
        simp only [cp2kRunType, hbuild, hb, hhT, hhF, Bind.bind, Except.bind,
          if_true, if_false, Except.map, pure, Except.pure]
        cases cp2kScan (fun k => dictGet ps k Value.none) tableC <;> simp

/-- Witness for C3: with `tblA` (no `LDAU` rule) and base parameters `pA`,
toggling `LDAU` between `True` and `False` turns `"HSE06"` into
`"HSE06+U"`; for CP2K, toggling `dft_plus_u` over a one-functional `dft`
turns `"METAGGA"` into `"METAGGA+U"`. -/
theorem runType_hubbard_toggle_witness :
    pyTruthy (Value.bool true) = true
    ∧ pyTruthy (Value.bool false) = false
    ∧ tableNoKey tblA "LDAU"
    ∧ vaspRunType tblA (pset pA "LDAU" (Value.bool true)) = Except.ok "HSE06+U"
    ∧ vaspRunType tblA (pset pA "LDAU" (Value.bool false)) = Except.ok "HSE06" := by
  refine ⟨rfl, rfl, by decide, ?_, rfl⟩
  have h := (runType_hubbard_toggle tblA pA tblA pA (Value.bool true)
    (Value.bool false) rfl rfl (by decide)).1
  rw [h]
  rfl

/-! ## C4 -/

/-- A CP2K rule table whose class name (`METAGGA`) differs from its
special-type name (`SCAN`). -/
def ctbl : RuleTable := [("METAGGA", [("SCAN", [("FUNCTIONAL", Value.str "SCAN")])])]

/-- A CP2K `dft` dictionary declaring the single functional `SCAN`. -/
def cdft : Params := fun k =>
  if k = "functional" then some (Value.list [Value.str "SCAN"]) else Option.none

/-- Counterexample to C4: on `ctbl`/`cdft` the matching rule's special-type
name is `"SCAN"`, but the CP2K `run_type` returns the functional-class name
`"METAGGA"`, not `"SCAN"` — the claim fails for the CP2K classifier. -/
theorem cp2k_runType_class_name_cex :
    cp2kRunType ctbl cdft = Except.ok (some "METAGGA")
    ∧ cp2kRunType ctbl cdft ≠ Except.ok (some "SCAN") := by
  refine ⟨rfl, ?_⟩
  intro h
  rw [show cp2kRunType ctbl cdft = Except.ok (some "METAGGA") from rfl] at h
  injection h with h2
  injection h2 with h3
  exact absurd h3 (by decide)

/-- C4 amended: when a rule matches, the VASP `run_type` returns the
special-type name of the first matching rule (plus Hubbard suffix), but
the CP2K `run_type` returns the name of the enclosing functional class
(plus Hubbard suffix), discarding the special-type name. -/
theorem runType_first_match_label :
    (∀ (table : RuleTable) (p : Params)
       (rules : List (String × List (String × Value))) (st : String),
        table.lookup "HF" = some rules →
        firstRuleMatch (vaspGet p) rules = some st →
        vaspRunType table p = Except.ok (st ++ vaspHubbard p))
    ∧ (∀ (c : String) (crules : List (String × List (String × Value)))
         (rest : RuleTable) (dft : Params) (ps : List (String × Value)) (st : String),
        cp2kBuildParams dft = Except.ok ps →
        firstRuleMatch (fun k => dictGet ps k Value.none) crules = some st →
        cp2kRunType ((c, crules) :: rest) dft
          = Except.ok (some (c ++
              (if pyTruthy (pget dft "dft_plus_u" Value.none)
               then "+U" else "")))) := by
  constructor
  · intro table p rules st hl hm
    have hscan : vaspScan table p vaspClassOrder = Except.ok (some st) := by
      simp [vaspClassOrder, vaspScan, hl, hm]
    simp [vaspRunType, hscan]
  · intro c crules rest dft ps st hb hm
    have hs : (firstRuleMatch (fun k => dictGet ps k Value.none) crules).isSome
        = true := by rw [hm]; rfl
    simp [cp2kRunType, hb, Bind.bind, Except.bind, cp2kScan, hs, pure, Except.pure]

/-- Witness for the amended C4: the HF match on `tblA`/`pA` yields the
special-type label `"HSE06"`; the CP2K match on `ctbl`/`cdft` yields the
class label `"METAGGA"`. -/
theorem runType_first_match_label_witness :
    tblA.lookup "HF" = some [("HSE06", [("LHFCALC", Value.bool true)])]
    ∧ firstRuleMatch (vaspGet pA)
        [("HSE06", [("LHFCALC", Value.bool true)])] = some "HSE06"
    ∧ vaspRunType tblA pA = Except.ok "HSE06"
    ∧ cp2kBuildParams cdft = Except.ok
        [("FUNCTIONAL", Value.str "SCAN"), ("INTERACTION_POTENTIAL", Value.none),
         ("FRACTION", Value.int 0)]
    ∧ cp2kRunType ctbl cdft = Except.ok (some "METAGGA") := by
  refine ⟨rfl, rfl, ?_, rfl, ?_⟩
  · exact runType_first_match_label.1 tblA pA
      [("HSE06", [("LHFCALC", Value.bool true)])] "HSE06" rfl rfl
  · exact runType_first_match_label.2 "METAGGA"
      [("SCAN", [("FUNCTIONAL", Value.str "SCAN")])] [] cdft
      [("FUNCTIONAL", Value.str "SCAN"), ("INTERACTION_POTENTIAL", Value.none),
       ("FRACTION", Value.int 0)] "SCAN" rfl rfl

/-! ## C5 -/

/-- Counterexample to C5: on an input with no `incar` (so every branch
condition is false), the VASP `task_type` joins an empty label list into
`""`, which is not a member of `_TASK_TYPES`, so the `TaskType("")` enum
lookup raises `ValueError` instead of returning the empty label. -/
theorem vasp_taskType_empty_label_cex :
    vaspTaskLabel pempty = Except.ok ""
    ∧ vaspTaskType pempty = Except.error () := ⟨rfl, rfl⟩

/-- No group of the chain contains the string: the label is empty. -/
theorem cp2kMatchGroup_no_match (u : String) :
    ∀ gs, (∀ g ∈ gs, g.1.contains u = false) → cp2kMatchGroup u gs = ""
  | [], _ => rfl
  | (g, label) :: rest, h => by
      have h1 := h (g, label) (List.mem_cons_self _ _)
      simp only [cp2kMatchGroup, h1, Bool.false_eq_true, if_false]
      exact cp2kMatchGroup_no_match u rest
        fun x hx => h x (List.mem_cons_of_mem _ hx)

/-- C5 amended: on inputs where no branch of the task-type decision logic
matches, the joined label is the empty string in both codes; the CP2K
`task_type` (whose spec-modelled enum admits the empty label) returns it
without error, but the VASP `task_type` raises `ValueError`, because the
empty string is not a member of the VASP `TaskType` enum. -/
theorem taskType_no_branch_empty_label :
    (∀ (inputs : Params) (incar : List (String × Value)),
       getIncar inputs = Except.ok incar →
       pyGt (dictGet incar "ICHARG" (Value.int 0)) 10 = Except.ok false →
       pyTruthy (dictGet incar "LEPSILON" (Value.bool false)) = false →
       pyGt (dictGet incar "IBRION" (Value.int 0)) 6 = Except.ok false →
       pyTruthy (dictGet incar "LCHIMAG" (Value.bool false)) = false →
       pyTruthy (dictGet incar "LEFG" (Value.bool false)) = false →
       pyEq (dictGet incar "NSW" (Value.int 1)) (Value.int 0) = false →
       vaspRelaxCond incar 2 3 = Except.ok false →
       vaspRelaxCond incar 3 2 = Except.ok false →
       vaspTaskLabel inputs = Except.ok ""
       ∧ vaspTaskType inputs = Except.error ())
    ∧ (∀ (inputs : Params) (s : String),
       pget inputs "Run_type" (Value.str "") = Value.str s →
       (∀ g ∈ cp2kGroups, g.1.contains (pyUpper s) = false) →
       cp2kTaskType inputs = Except.ok "") := by
  constructor
  · intro inputs incar h1 h2 h3 h4 h5 h6 h7 h8 h9
    have hlabel : vaspTaskLabel inputs = Except.ok "" := by
      simp only [vaspTaskLabel, h1, h2, h3, h4, h5, h6, h7, h8, h9,
        Bind.bind, Except.bind, Bool.false_eq_true, if_false]
      rfl
    refine ⟨hlabel, ?_⟩
    simp only [vaspTaskType, hlabel, Bind.bind, Except.bind]
    rw [if_neg (by decide : ¬ (vaspTaskTypes.contains "" = true))]
  · intro inputs s hs hg
    have hlabel : cp2kTaskLabel inputs = Except.ok "" := by
      simp only [cp2kTaskLabel, hs, Bind.bind, Except.bind, pure, Except.pure]
      rw [cp2kMatchGroup_no_match (pyUpper s) cp2kGroups hg]
    simp only [cp2kTaskType, hlabel, Bind.bind, Except.bind]
    rw [if_pos (by decide : cp2kTaskValues.contains "" = true)]
    rfl

/-- Witness for the amended C5: the empty inputs satisfy every no-branch
hypothesis; the VASP side raises, the CP2K side returns the empty label. -/
theorem taskType_no_branch_empty_label_witness :
    getIncar pempty = Except.ok []
    ∧ pyGt (dictGet [] "ICHARG" (Value.int 0)) 10 = Except.ok false
    ∧ vaspTaskLabel pempty = Except.ok ""
    ∧ vaspTaskType pempty = Except.error ()
    ∧ pget pempty "Run_type" (Value.str "") = Value.str ""
    ∧ cp2kTaskType pempty = Except.ok "" := by
  refine ⟨rfl, rfl, ?_, ?_, rfl, ?_⟩
  · exact (taskType_no_branch_empty_label.1 pempty []
      rfl rfl rfl rfl rfl rfl rfl rfl rfl).1
  · exact (taskType_no_branch_empty_label.1 pempty []
      rfl rfl rfl rfl rfl rfl rfl rfl rfl).2
  · exact taskType_no_branch_empty_label.2 pempty "" rfl (by decide)

/-! ## C6 -/

/-- Inputs whose `incar` sets `NSW = 0` (the `Static` task branch). -/
def inStatic : Params := fun k =>
  if k = "incar" then some (Value.dict [("NSW", Value.int 0)]) else Option.none

/-- C6 fails on the code: with `run_type` = `"LDA"` and `task_type` =
`"Static"` both succeeding, the VASP `calc_type` formats the plain-Enum
members — producing `"RunType.LDA TaskType.Static"` rather than
`"LDA Static"` — so the `CalcType` by-value lookup raises `ValueError` on
every input, even though the intended value `"LDA Static"` is a `CalcType`
member. (The CP2K twin correctly formats `.value`.) -/
theorem vasp_calcType_format_bug :
    vaspRunType tblA pempty = Except.ok "LDA"
    ∧ vaspTaskType inStatic = Except.ok "Static"
    ∧ (vaspCalcTypeValues tblA).contains "LDA Static" = true
    ∧ runTypeMemberName "LDA" = "LDA"
    ∧ taskTypeMemberName "Static" = "Static"
    ∧ (vaspCalcTypeValues tblA).contains "RunType.LDA TaskType.Static" = false
    ∧ vaspCalcType tblA inStatic pempty = Except.error () :=
  ⟨rfl, rfl, rfl, rfl, rfl, rfl, rfl⟩

/-! ## C8 -/

/-- Counterexample to C8: on the empty rule table with a one-functional
`dft` and no declared `Run_type`, the CP2K `run_type` completes without
error with the unset outcome and `task_type` completes with the empty
label, yet `calc_type` raises an `AttributeError` of its own
(`run_type(inputs).value` on `None`). -/
theorem cp2k_calcType_unset_cex :
    cp2kRunType [] cdft = Except.ok Option.none
    ∧ cp2kTaskType cdft = Except.ok ""
    ∧ cp2kCalcType [] cdft = Except.error () := ⟨rfl, rfl, rfl⟩

/-- C8 amended: the CP2K `calc_type` propagates upstream failures and
composes the two labels when `run_type` returns a classified label and
`task_type` succeeds, but when `run_type` completes with the valid unset
outcome (no rule matched), `calc_type` raises a new `AttributeError` of
its own instead of completing. -/
theorem cp2k_calcType_composition :
    (∀ (table : RuleTable) (inputs : Params) (s t : String),
       cp2kRunType table inputs = Except.ok (some s) →
       cp2kTaskType inputs = Except.ok t →
       cp2kCalcType table inputs = Except.ok (s ++ " " ++ t))
    ∧ (∀ (table : RuleTable) (inputs : Params),
       cp2kRunType table inputs = Except.ok Option.none →
       cp2kCalcType table inputs = Except.error ())
    ∧ (∀ (table : RuleTable) (inputs : Params),
       cp2kRunType table inputs = Except.error () →
       cp2kCalcType table inputs = Except.error ()) := by
  refine ⟨?_, ?_, ?_⟩
  · intro table inputs s t hr ht
    simp only [cp2kCalcType, hr, ht, Bind.bind, Except.bind]
    rfl
  · intro table inputs hr
    simp [cp2kCalcType, hr, Bind.bind, Except.bind]
  · intro table inputs hr
    simp [cp2kCalcType, hr, Bind.bind, Except.bind]

/-- CP2K inputs declaring both a functional and a `GEO_OPT` run type. -/
def cin : Params := fun k =>
  if k = "functional" then some (Value.list [Value.str "SCAN"])
  else if k = "Run_type" then some (Value.str "geo_opt") else Option.none

/-- Witness for the amended C8: on `ctbl`/`cin`, the classified run type
`"METAGGA"` and task type `"Structure Optimization"` compose; on the empty
table the unset run type makes `calc_type` itself raise. -/
theorem cp2k_calcType_composition_witness :
    cp2kRunType ctbl cin = Except.ok (some "METAGGA")
    ∧ cp2kTaskType cin = Except.ok "Structure Optimization"
    ∧ cp2kCalcType ctbl cin = Except.ok "METAGGA Structure Optimization"
    ∧ cp2kRunType [] cin = Except.ok Option.none
    ∧ cp2kCalcType [] cin = Except.error () := by
  refine ⟨rfl, rfl, ?_, rfl, ?_⟩
  · exact cp2k_calcType_composition.1 ctbl cin "METAGGA"
      "Structure Optimization" rfl rfl
  · exact cp2k_calcType_composition.2.1 [] cin rfl

/-! ## C10 -/

/-- C10: when the CP2K `dft` dictionary has no `functional` key (or maps it
to `None`), `run_type` raises (`len(None)` at the single-element unwrap,
a `TypeError`) whatever the rule table is — before any rule is evaluated —
rather than treating the absence as a default or returning the unset
outcome. -/
theorem cp2k_runType_missing_functional (table : RuleTable) (dft : Params)
    (h : dft "functional" = Option.none ∨ dft "functional" = some Value.none) :
    cp2kRunType table dft = Except.error () := by
  have hf : pget dft "functional" Value.none = Value.none := by
    rcases h with h | h <;> simp [pget, h]
  cases hx : pget dft "hfx" (Value.dict []) with
  | dict hd => simp [cp2kRunType, cp2kBuildParams, hf, hx, pyLen,
      cp2kUnwrapFunctional, Bind.bind, Except.bind]
  | none => simp [cp2kRunType, cp2kBuildParams, hx, Bind.bind, Except.bind]
  | bool b => simp [cp2kRunType, cp2kBuildParams, hx, Bind.bind, Except.bind]
  | int n => simp [cp2kRunType, cp2kBuildParams, hx, Bind.bind, Except.bind]
  | str s => simp [cp2kRunType, cp2kBuildParams, hx, Bind.bind, Except.bind]
  | list xs => simp [cp2kRunType, cp2kBuildParams, hx, Bind.bind, Except.bind]

/-- Witness for C10: the empty `dft` has no `functional` key and `run_type`
raises on it (shown on two rule tables to illustrate the independence from
the table). -/
theorem cp2k_runType_missing_functional_witness :
    pempty "functional" = Option.none
    ∧ cp2kRunType [] pempty = Except.error ()
    ∧ cp2kRunType ctbl pempty = Except.error () :=
  ⟨rfl, cp2k_runType_missing_functional [] pempty (Or.inl rfl),
    cp2k_runType_missing_functional ctbl pempty (Or.inl rfl)⟩

/-! ## C7 -/

/-- Is this value a Python string? -/
def isStrVal : Value → Bool
  | Value.str _ => true
  | _ => false

/-- Strings equal after `strip().upper()` are interchangeable on the left
of `_variant_equal`. -/
theorem variantEqual_str_congr (s t : String)
    (h : pyUpper (pyStrip s) = pyUpper (pyStrip t)) :
    ∀ v, variantEqual (Value.str s) v = variantEqual (Value.str t) v := by
  intro v
  cases v <;> simp [variantEqual, pyEq, h]

/-- Rule matching only looks at parameters through `_variant_equal`. -/
theorem ruleMatches_congr (g1 g2 : String → Value)
    (h : ∀ q v, variantEqual (g1 q) v = variantEqual (g2 q) v)
    (ps : List (String × Value)) : ruleMatches g1 ps = ruleMatches g2 ps := by
  unfold ruleMatches
  induction ps with
  | nil => rfl
  | cons kv rest ih => simp only [List.all_cons, h kv.1 kv.2, ih]

/-- The first matching rule of a class only looks at parameters through
`_variant_equal`. -/
theorem firstRuleMatch_congr (g1 g2 : String → Value)
    (h : ∀ q v, variantEqual (g1 q) v = variantEqual (g2 q) v)
    (rules : List (String × List (String × Value))) :
    firstRuleMatch g1 rules = firstRuleMatch g2 rules := by
  induction rules with
  | nil => rfl
  | cons r rest ih =>
      simp only [firstRuleMatch, ruleMatches_congr g1 g2 h r.2, ih]

/-- The VASP class scan only looks at parameters through `_variant_equal`. -/
theorem vaspScan_congr (table : RuleTable) (p1 p2 : Params)
    (h : ∀ q v, variantEqual (vaspGet p1 q) v = variantEqual (vaspGet p2 q) v)
    (cs : List String) : vaspScan table p1 cs = vaspScan table p2 cs := by
  induction cs with
  | nil => rfl
  | cons c rest ih =>
      cases hl : table.lookup c with
      | none => simp [vaspScan, hl]
      | some rules =>
          simp only [vaspScan, hl]
          rw [firstRuleMatch_congr (vaspGet p1) (vaspGet p2) h rules]
          cases firstRuleMatch (vaspGet p2) rules with
          | none => exact ih
          | some st => rfl

/-- The CP2K class scan only looks at parameters through `_variant_equal`. -/
theorem cp2kScan_congr (g1 g2 : String → Value)
    (h : ∀ q v, variantEqual (g1 q) v = variantEqual (g2 q) v) :
    ∀ tb : RuleTable, cp2kScan g1 tb = cp2kScan g2 tb
  | [] => rfl
  | (c, rules) :: rest => by
      simp only [cp2kScan, firstRuleMatch_congr g1 g2 h rules,
        cp2kScan_congr g1 g2 h rest]

/-- The `FUNCTIONAL` unwrap is the identity on plain strings: either the
string has length one (and `s[0]` is `s` itself) or it is left alone. -/
theorem cp2kUnwrap_str (s : String) :
    cp2kUnwrapFunctional (Value.str s) = Except.ok (Value.str s) := by
  by_cases h : s.length = 1 <;>
    simp [cp2kUnwrapFunctional, pyLen, pyIndex0, h, Bind.bind, Except.bind,
      pure, Except.pure]

/-- C7: `_variant_equal` compares two strings by whitespace-stripped,
upper-cased equality and any other pair of values by Python `==`;
consequently, a string parameter replaced by a strip-upper-equal variant
(e.g. `"pbe"`, `"PBE"`, `" PBE "`) classifies to the same run type, in
the VASP classifier (for any rule key other than the separately read
Hubbard flag) and in the CP2K classifier (for the `functional` entry). -/
theorem variant_matching_case_insensitive :
    (∀ a b : String, variantEqual (Value.str a) (Value.str b)
        = (pyUpper (pyStrip a) == pyUpper (pyStrip b)))
    ∧ (∀ v1 v2 : Value, isStrVal v1 = false ∨ isStrVal v2 = false →
        variantEqual v1 v2 = pyEq v1 v2)
    ∧ (∀ (table : RuleTable) (p : Params) (k : String) (s t : String),
        k ≠ "LDAU" → pyUpper (pyStrip s) = pyUpper (pyStrip t) →
        vaspRunType table (pset p k (Value.str s))
          = vaspRunType table (pset p k (Value.str t)))
    ∧ (∀ (table : RuleTable) (dft : Params) (s t : String),
        pyUpper (pyStrip s) = pyUpper (pyStrip t) →
        cp2kRunType table (pset dft "functional" (Value.str s))
          = cp2kRunType table (pset dft "functional" (Value.str t))) := by
  refine ⟨fun a b => rfl, ?_, ?_, ?_⟩
  · intro v1 v2 h
    cases v1 <;> cases v2 <;> first
      | rfl
      | (rcases h with h | h <;> simp [isStrVal] at h)
  · intro table p k s t hk hst
    have hget : ∀ q v, variantEqual (vaspGet (pset p k (Value.str s)) q) v
        = variantEqual (vaspGet (pset p k (Value.str t)) q) v := by
      intro q v
      by_cases hq : q = k
      · subst hq
        simp only [vaspGet, pget, pset, if_pos rfl, Option.getD_some]
        exact variantEqual_str_congr s t hst v
      · simp [vaspGet, pget, pset, hq]
    have hscan := vaspScan_congr table _ _ hget vaspClassOrder
    have hLD : ¬ (("LDAU" : String) = k) := fun hh => hk hh.symm
    have hhub : vaspHubbard (pset p k (Value.str s))
        = vaspHubbard (pset p k (Value.str t)) := by
      simp [vaspHubbard, pget, pset, hLD]
    unfold vaspRunType
    rw [hscan, hhub]
  · intro table dft s t hst
    have hfk : ¬ (("hfx" : String) = "functional") := by decide
    have hdk : ¬ (("dft_plus_u" : String) = "functional") := by decide
    cases hx : (dft "hfx").getD (Value.dict []) with
    | dict hd =>
        have hbuild : ∀ u : String,
            cp2kBuildParams (pset dft "functional" (Value.str u))
              = Except.ok [("FUNCTIONAL", Value.str u),
                  ("INTERACTION_POTENTIAL", dictGet hd "Interaction_Potential" Value.none),
                  ("FRACTION", dictGet hd "FRACTION" (Value.int 0))] := by
          intro u
          simp [cp2kBuildParams, pget, pset, hfk, hx, cp2kUnwrap_str,
            Bind.bind, Except.bind, pure, Except.pure]
        have hget : ∀ q v,
            variantEqual (dictGet [("FUNCTIONAL", Value.str s),
                ("INTERACTION_POTENTIAL", dictGet hd "Interaction_Potential" Value.none),
                ("FRACTION", dictGet hd "FRACTION" (Value.int 0))] q Value.none) v
            = variantEqual (dictGet [("FUNCTIONAL", Value.str t),
                ("INTERACTION_POTENTIAL", dictGet hd "Interaction_Potential" Value.none),
                ("FRACTION", dictGet hd "FRACTION" (Value.int 0))] q Value.none) v := by
          intro q v
          by_cases hq : (q == "FUNCTIONAL") = true
          · simp only [dictGet, List.lookup, hq]
            exact variantEqual_str_congr s t hst v
          · simp only [dictGet, List.lookup, hq]
        simp only [cp2kRunType, hbuild s, hbuild t, Bind.bind, Except.bind,
          pget, pset, hdk, if_false]
        rw [cp2kScan_congr _ _ hget table]
    | none =>
        simp [cp2kRunType, cp2kBuildParams, pget, pset, hfk, hdk, hx,
          Bind.bind, Except.bind]
    | bool b =>
        simp [cp2kRunType, cp2kBuildParams, pget, pset, hfk, hdk, hx,
          Bind.bind, Except.bind]
    | int n =>
        simp [cp2kRunType, cp2kBuildParams, pget, pset, hfk, hdk, hx,
          Bind.bind, Except.bind]
    | str u =>
        simp [cp2kRunType, cp2kBuildParams, pget, pset, hfk, hdk, hx,
          Bind.bind, Except.bind]
    | list xs =>
        simp [cp2kRunType, cp2kBuildParams, pget, pset, hfk, hdk, hx,
          Bind.bind, Except.bind]

/-- Witness for C7: `" pe "` and `"PE"` (VASP `GGA` parameter) and
`" scan "` versus `"SCAN"` (CP2K functional) classify identically, and the
string/non-string branches of `_variant_equal` evaluate as stated. -/
theorem variant_matching_case_insensitive_witness :
    variantEqual (Value.str " PBE ") (Value.str "pbe")
      = (pyUpper (pyStrip " PBE ") == pyUpper (pyStrip "pbe"))
    ∧ variantEqual (Value.str " PBE ") (Value.str "pbe") = true
    ∧ variantEqual (Value.int 1) (Value.bool true)
      = pyEq (Value.int 1) (Value.bool true)
    ∧ vaspRunType tblA (pset pempty "GGA" (Value.str " pe "))
      = vaspRunType tblA (pset pempty "GGA" (Value.str "PE"))
    ∧ vaspRunType tblA (pset pempty "GGA" (Value.str " pe ")) = Except.ok "PBE"
    ∧ cp2kRunType ctbl (pset pempty "functional" (Value.str " scan "))
      = cp2kRunType ctbl (pset pempty "functional" (Value.str "SCAN"))
    ∧ cp2kRunType ctbl (pset pempty "functional" (Value.str " scan "))
      = Except.ok (some "METAGGA") := by
  refine ⟨variant_matching_case_insensitive.1 " PBE " "pbe", rfl,
    variant_matching_case_insensitive.2.1 (Value.int 1) (Value.bool true)
      (Or.inl rfl),
    variant_matching_case_insensitive.2.2.1 tblA pempty "GGA" " pe " "PE"
      (by decide) rfl,
    rfl,
    variant_matching_case_insensitive.2.2.2 ctbl pempty " scan " "SCAN" rfl,
    rfl⟩

/-! ## C9 -/

mutual

/-- When every `Enum` value in the input is itself string-keyed, a
successful `jsanitize` produces a string-keyed tree. -/
theorem jsanitize_sk : ∀ (strict ab : Bool) (v : PyVal),
    enumClean v = true →
    ∀ t, jsanitize strict ab v = Except.ok t → stringKeyed t = true
  | strict, ab, PyVal.noneV, _, t, h => by
      simp only [jsanitize, Except.ok.injEq] at h
      subst h; rfl
  | strict, ab, PyVal.boolV b, _, t, h => by
      simp only [jsanitize, Except.ok.injEq] at h
      subst h; rfl
  | strict, ab, PyVal.intV n, _, t, h => by
      simp only [jsanitize, Except.ok.injEq] at h
      subst h; rfl
  | strict, ab, PyVal.strV s, _, t, h => by
      simp only [jsanitize, Except.ok.injEq] at h
      subst h; rfl
  | strict, ab, PyVal.datetimeV rep, _, t, h => by
      simp only [jsanitize] at h
      split at h
      · simp only [Except.ok.injEq] at h; subst h; rfl
      · split at h
        · simp at h
        · simp only [Except.ok.injEq] at h; subst h; rfl
  | strict, ab, PyVal.bytesV rep, _, t, h => by
      simp only [jsanitize] at h
      split at h
      · simp only [Except.ok.injEq] at h; subst h; rfl
      · split at h
        · simp at h
        · simp only [Except.ok.injEq] at h; subst h; rfl
  | strict, ab, PyVal.objectIdV rep, _, t, h => by
      simp only [jsanitize] at h
      split at h
      · simp only [Except.ok.injEq] at h; subst h; rfl
      · split at h
        · simp at h
        · simp only [Except.ok.injEq] at h; subst h; rfl
  | strict, ab, PyVal.listV xs, hv, t, h => by
      simp only [enumClean] at hv
      simp only [jsanitize, Bind.bind] at h
      cases hys : jsanList strict ab xs with
      | error e => rw [hys] at h; simp [Except.bind] at h
      | ok ys =>
          rw [hys] at h
          simp only [Except.bind, pure, Except.pure, Except.ok.injEq] at h
          subst h
          simpa only [stringKeyed] using jsanList_sk strict ab xs hv ys hys
  | strict, ab, PyVal.ndarrayV xs, hv, t, h => by
      simp only [enumClean] at hv
      simp only [jsanitize, Bind.bind] at h
      cases hys : jsanList strict ab xs with
      | error e => rw [hys] at h; simp [Except.bind] at h
      | ok ys =>
          rw [hys] at h
          simp only [Except.bind, pure, Except.pure, Except.ok.injEq] at h
          subst h
          simpa only [stringKeyed] using jsanList_sk strict ab xs hv ys hys
  | strict, ab, PyVal.enumV v, hv, t, h => by
      simp only [jsanitize, Except.ok.injEq] at h
      subst h
      simpa only [enumClean] using hv
  | strict, ab, PyVal.dictV es, hv, t, h => by
      simp only [enumClean] at hv
      simp only [jsanitize, Bind.bind] at h
      cases hfs : jsanPairs strict ab es with
      | error e => rw [hfs] at h; simp [Except.bind] at h
      | ok fs =>
          rw [hfs] at h
          simp only [Except.bind, pure, Except.pure, Except.ok.injEq] at h
          subst h
          simpa only [stringKeyed] using jsanPairs_sk strict ab es hv fs hfs
  | strict, ab, PyVal.msonV rep d, hv, t, h => by
      simp only [enumClean] at hv
      simp only [jsanitize, Bind.bind] at h
      cases hfs : jsanPairs strict ab d with
      | error e => rw [hfs] at h; simp [Except.bind] at h
      | ok fs =>
          rw [hfs] at h
          simp only [Except.bind, pure, Except.pure, Except.ok.injEq] at h
          subst h
          simpa only [stringKeyed] using jsanPairs_sk strict ab d hv fs hfs
  | strict, ab, PyVal.modelV rep d, hv, t, h => by
      simp only [enumClean] at hv
      simp only [jsanitize, Bind.bind] at h
      cases hfs : jsanPairs strict ab d with
      | error e => rw [hfs] at h; simp [Except.bind] at h
      | ok fs =>
          rw [hfs] at h
          simp only [Except.bind, pure, Except.pure, Except.ok.injEq] at h
          subst h
          simpa only [stringKeyed] using jsanPairs_sk strict ab d hv fs hfs
  | true, ab, PyVal.otherV rep Option.none, _, t, h => by
      have h2 : (Except.error () : Except Unit PyVal) = Except.ok t := h
      exact Except.noConfusion h2
  | true, ab, PyVal.otherV rep (some d), hv, t, h => by
      simp only [enumClean] at hv
      have h2 : (do
          let fs ← jsanPairs true ab d
          pure (PyVal.dictV fs)) = Except.ok t := h
      simp only [Bind.bind] at h2
      cases hfs : jsanPairs true ab d with
      | error e => rw [hfs] at h2; simp [Except.bind] at h2
      | ok fs =>
          rw [hfs] at h2
          simp only [Except.bind, pure, Except.pure, Except.ok.injEq] at h2
          subst h2
          simpa only [stringKeyed] using jsanPairs_sk true ab d hv fs hfs
  | false, ab, PyVal.otherV rep asDict, _, t, h => by
      have h2 : Except.ok (PyVal.strV rep) = Except.ok t := h
      simp only [Except.ok.injEq] at h2
      subst h2; rfl

/-- Auxiliary to `jsanitize_sk` for element lists. -/
theorem jsanList_sk : ∀ (strict ab : Bool) (xs : List PyVal),
    ecList xs = true →
    ∀ ys, jsanList strict ab xs = Except.ok ys → skList ys = true
  | strict, ab, [], _, ys, h => by
      simp only [jsanList, Except.ok.injEq] at h
      subst h; rfl
  | strict, ab, x :: xs, hv, ys, h => by
      simp only [ecList, Bool.and_eq_true] at hv
      simp only [jsanList, Bind.bind] at h
      cases hy : jsanitize strict ab x with
      | error e => rw [hy] at h; simp [Except.bind] at h
      | ok y =>
          rw [hy] at h
          simp only [Except.bind] at h
          cases hys : jsanList strict ab xs with
          | error e => rw [hys] at h; simp [Except.bind] at h
          | ok ys2 =>
              rw [hys] at h
              simp only [pure, Except.pure, Except.ok.injEq] at h
              subst h
              simp only [skList, Bool.and_eq_true]
              exact ⟨jsanitize_sk strict ab x hv.1 y hy,
                jsanList_sk strict ab xs hv.2 ys2 hys⟩

/-- Auxiliary to `jsanitize_sk` for dictionary payloads: the sanitized
pairs have `str()`-converted keys and string-keyed values. -/
theorem jsanPairs_sk : ∀ (strict ab : Bool) (es : List (PyVal × PyVal)),
    ecPairs es = true →
    ∀ fs, jsanPairs strict ab es = Except.ok fs → skDict fs = true
  | strict, ab, [], _, fs, h => by
      simp only [jsanPairs, Except.ok.injEq] at h
      subst h; rfl
  | strict, ab, (k, v) :: es, hv, fs, h => by
      simp only [ecPairs, Bool.and_eq_true] at hv
      simp only [jsanPairs, Bind.bind] at h
      cases hw : jsanitize strict ab v with
      | error e => rw [hw] at h; simp [Except.bind] at h
      | ok w =>
          rw [hw] at h
          simp only [Except.bind] at h
          cases hfs : jsanPairs strict ab es with
          | error e => rw [hfs] at h; simp [Except.bind] at h
          | ok fs2 =>
              rw [hfs] at h
              simp only [pure, Except.pure, Except.ok.injEq] at h
              subst h
              simp only [skDict, Bool.and_eq_true]
              exact ⟨jsanitize_sk strict ab v hv.1 w hw,
                jsanPairs_sk strict ab es hv.2 fs2 hfs⟩

end

/-- Counterexample to C9: `jsanitize` returns an `Enum` member's `.value`
without recursing into it, so an enum whose value is a dictionary with an
integer key yields an output tree containing a non-string-keyed
dictionary, in lenient mode without bson (and the same branch is taken in
every mode). -/
theorem jsanitize_enum_dict_cex :
    jsanitize false false
        (PyVal.enumV (PyVal.dictV [(PyVal.intV 1, PyVal.intV 2)]))
      = Except.ok (PyVal.dictV [(PyVal.intV 1, PyVal.intV 2)])
    ∧ stringKeyed (PyVal.dictV [(PyVal.intV 1, PyVal.intV 2)]) = false :=
  ⟨rfl, rfl⟩

/-- C9 amended: in both strict and lenient mode, with or without
`allow_bson`, every dictionary in a tree successfully returned by
`jsanitize` has only string keys — provided every `Enum` member occurring
in the input has a string-keyed value, since enum values are forwarded
verbatim (`return obj.value`) without sanitization. -/
theorem jsanitize_string_keyed (strict ab : Bool) (v t : PyVal)
    (hv : enumClean v = true) (h : jsanitize strict ab v = Except.ok t) :
    stringKeyed t = true :=
  jsanitize_sk strict ab v hv t h

/-- Witness for the amended C9: a dictionary with an integer key and an
`MSONable` value sanitizes, in strict mode with bson allowed, to a
string-keyed tree. -/
theorem jsanitize_string_keyed_witness :
    enumClean (PyVal.dictV [(PyVal.intV 3, PyVal.listV [PyVal.msonV "m" []])])
      = true
    ∧ jsanitize true true
        (PyVal.dictV [(PyVal.intV 3, PyVal.listV [PyVal.msonV "m" []])])
      = Except.ok (PyVal.dictV [(PyVal.strV "3", PyVal.listV [PyVal.dictV []])])
    ∧ stringKeyed (PyVal.dictV [(PyVal.strV "3", PyVal.listV [PyVal.dictV []])])
      = true := by
  refine ⟨rfl, rfl, ?_⟩
  exact jsanitize_string_keyed true true
    (PyVal.dictV [(PyVal.intV 3, PyVal.listV [PyVal.msonV "m" []])])
    (PyVal.dictV [(PyVal.strV "3", PyVal.listV [PyVal.dictV []])]) rfl rfl

end Emmet
